import Mathlib

/-!
Shallow embedding of `src/reader/kubernetes/kubeconfig.rs` (the `woodchipper`
kubeconfig reader): the config data model, the byte-material decode
strategies, the context resolver, the exec credential bridge, and the
client bootstrapper.  External collaborators (the filesystem, the base64
codec, the subprocess launcher, serde's YAML decoder and reqwest's
transport constructors) are modelled as explicit parameters or as small
executable functions following their documented behaviour.
-/

namespace Kubeconfig

/-- The error enum of `kubeconfig.rs` (lines 21-113).  Library-provided
`source` payloads (`std::io::Error`, `serde_yaml::Error`,
`subprocess::PopenError`, `reqwest::Error`) are modelled as opaque
message strings. -/
inductive Error where
  | ConfigRead (path : String) (source : String)
  | ConfigDeserialize (path : String) (source : String)
  | ContextNotFound (path : String) (context : Option String)
  | InvalidAuthHeader (message : String)
  | InvalidIdentity (source : String)
  | ReqwestInit (source : String)
  | AuthPluginExecError (command : String) (source : String)
  | AuthPluginError (command : String) (message : String)
  | AuthPluginDeserialize (command : String) (source : String)
  | CertificateConversionError (message : String)
  | InvalidCertificate (context : String) (source : String)
deriving DecidableEq, Repr

/-- `Bytes` (line 117): a wrapper around `Vec<u8>`; bytes are Nats < 256. -/
abbrev Bytes := List Nat

/-- The `fmt::Debug` output of `Bytes` (lines 127-131):
`write!(f, "&u8[{}]", self.0.len())`. -/
def Bytes.debugFmt (b : Bytes) : String :=
  "&u8[" ++ toString b.length ++ "]"

/-- Outcome of `File::open` + `read_to_end` on a path (the filesystem
collaborator used by `BytesFromPathStr`, lines 144-164). -/
inductive FsResult where
  | ok (data : Bytes)
  | openErr (e : String)
  | readErr (e : String)
deriving DecidableEq, Repr

/-- `BytesFromPathStr::visit_str` (lines 144-164): open the file at the
path, read it fully; wrap open and read failures in distinct
`de::Error::custom` messages. -/
def bytesFromPathStr (fs : String → FsResult) (s : String) : Except String Bytes :=
  match fs s with
  | .ok data => .ok data
  | .readErr e => .error ("error reading file at " ++ s ++ ": " ++ e)
  | .openErr e => .error ("unable to open file at " ++ s ++ ": " ++ e)

/-- The standard base64 alphabet used by the `base64` crate's default
(standard) configuration. -/
def b64Alphabet : List Char :=
  "ABCDEFGHIJKLMNOPQRSTUVWXYZabcdefghijklmnopqrstuvwxyz0123456789+/".toList

/-- Character for a sextet value. -/
def b64Char (n : Nat) : Char :=
  b64Alphabet.getD n 'A'

/-- Sextet value of a character, `none` for non-alphabet characters. -/
def b64Index? (c : Char) : Option Nat :=
  b64Alphabet.indexOf? c

/-- Standard base64 encoding of a byte sequence, three bytes at a time,
with `=` padding (models `base64::encode`). -/
def base64EncodeCore : List Nat → List Char
  | [] => []
  | [a] => [b64Char (a / 4), b64Char (a % 4 * 16), '=', '=']
  | [a, b] => [b64Char (a / 4), b64Char (a % 4 * 16 + b / 16), b64Char (b % 16 * 4), '=']
  | a :: b :: c :: rest =>
    b64Char (a / 4) :: b64Char (a % 4 * 16 + b / 16) ::
    b64Char (b % 16 * 4 + c / 64) :: b64Char (c % 64) :: base64EncodeCore rest

def base64Encode (b : List Nat) : String :=
  (base64EncodeCore b).asString

/-- Standard base64 decoding, four characters at a time, accepting `=`
padding only at the end (models `base64::decode`). -/
def base64DecodeCore : List Char → Except String (List Nat)
  | [] => .ok []
  | c1 :: c2 :: c3 :: c4 :: rest =>
    match b64Index? c1, b64Index? c2 with
    | some i1, some i2 =>
      if c3 = '=' then
        if c4 = '=' ∧ rest = [] then .ok [i1 * 4 + i2 / 16]
        else .error "invalid padding"
      else
        match b64Index? c3 with
        | some i3 =>
          if c4 = '=' then
            if rest = [] then .ok [i1 * 4 + i2 / 16, i2 % 16 * 16 + i3 / 4]
            else .error "invalid padding"
          else
            match b64Index? c4 with
            | some i4 =>
              match base64DecodeCore rest with
              | .ok bs => .ok ((i1 * 4 + i2 / 16) :: (i2 % 16 * 16 + i3 / 4) ::
                               (i3 % 4 * 64 + i4) :: bs)
              | .error e => .error e
            | none => .error "invalid symbol"
        | none => .error "invalid symbol"
    | _, _ => .error "invalid symbol"
  | _ => .error "invalid length"

def base64Decode (s : String) : Except String (List Nat) :=
  base64DecodeCore s.toList

/-- `BytesFromBase64::visit_str` (lines 183-195): decode the string as
standard base64; wrap decode failures in a `de::Error::custom` message. -/
def bytesFromBase64 (s : String) : Except String Bytes :=
  match base64Decode s with
  | .ok data => .ok data
  | .error e => .error ("unable to decode base64 string: " ++ e)

/-- UTF-8 encoding of one character (how Rust's `str::bytes` views a
string's characters). -/
def utf8Bytes (c : Char) : List Nat :=
  let n := c.toNat
  if n < 0x80 then [n]
  else if n < 0x800 then [0xC0 + n / 64, 0x80 + n % 64]
  else if n < 0x10000 then
    [0xE0 + n / 4096, 0x80 + n / 64 % 64, 0x80 + n % 64]
  else
    [0xF0 + n / 262144, 0x80 + n / 4096 % 64, 0x80 + n / 64 % 64, 0x80 + n % 64]

/-- `BytesFromStr::visit_str` (lines 214-219): `s.bytes().collect()`,
the raw UTF-8 bytes of the string, never failing. -/
def bytesFromStr (s : String) : Except String Bytes :=
  .ok (s.toList.flatMap utf8Bytes)

/-- `ClusterCertificateAuthority` (lines 229-246): untagged one-of over
the mutually exclusive keys `certificate-authority` (a path, read via
`de_path_bytes`) and `certificate-authority-data` (base64, read via
`de_base64_bytes`). -/
inductive ClusterCertificateAuthority where
  | File (certificate : Bytes)
  | Embedded (certificate : Bytes)
deriving DecidableEq, Repr

/-- `Cluster` (lines 252-262).  `insecure_skip_tls_verify` defaults to
`false`; the certificate authority is a flattened optional untagged
enum. -/
structure Cluster where
  server : String
  insecure_skip_tls_verify : Bool := false
  certificate_authority : Option ClusterCertificateAuthority := none
deriving DecidableEq, Repr

/-- `ClusterContainer` (lines 264-268). -/
structure ClusterContainer where
  name : String
  cluster : Cluster
deriving DecidableEq, Repr

/-- `Context` (lines 270-275). -/
structure Context where
  cluster : String
  «namespace» : Option String
  user : String
deriving DecidableEq, Repr

/-- `ContextContainer` (lines 284-288). -/
structure ContextContainer where
  name : String
  context : Context
deriving DecidableEq, Repr

/-- `ExecAuth` (lines 290-301); the `env` HashMap is modelled as an
association list. -/
structure ExecAuth where
  api_version : String
  command : String
  args : List String := []
  env : List (String × String) := []
deriving DecidableEq, Repr

/-- `ExecCredentialStatus` (lines 303-322).  `chrono::DateTime<Utc>`
timestamps are modelled as opaque strings. -/
inductive ExecCredentialStatus where
  | Token (token : String) (expiration_timestamp : Option String)
  | CertificateEmbedded (certificate : Bytes) (key : Bytes)
      (expiration_timestamp : Option String)
deriving DecidableEq, Repr

/-- `ExecCredential` (lines 324-331). -/
structure ExecCredential where
  api_version : String
  kind : String
  status : ExecCredentialStatus
deriving DecidableEq, Repr

/-- `Auth` (lines 333-374): the closed, mutually exclusive credential
representations. -/
inductive Auth where
  | Plain (username : String) (password : String)
  | Token (token : String)
  | CertificateFile (certificate : Bytes) (key : Bytes)
  | CertificateEmbedded (certificate : Bytes) (key : Bytes)
  | Exec (exec : ExecAuth)
  | Null
deriving DecidableEq, Repr

/-- `impl Default for Auth` (lines 455-459). -/
def Auth.defaultValue : Auth := .Null

/-- `User` (lines 474-478); `impl Default for User` (lines 480-486)
gives `auth = Null`. -/
structure User where
  auth : Auth := .Null
deriving DecidableEq, Repr

/-- `UserContainer` (lines 488-494). -/
structure UserContainer where
  name : String
  user : User := {}
deriving DecidableEq, Repr

/-- `KubernetesConfig` (lines 496-510).  The `preferences` bag of
`serde_json::Value` is passthrough and modelled as an opaque
association list of strings. -/
structure KubernetesConfig where
  api_version : String
  kind : String
  clusters : List ClusterContainer
  contexts : List ContextContainer
  users : List UserContainer
  current_context : Option String
  preferences : List (String × String) := []
deriving DecidableEq, Repr

/-- `ResolvedContext` (lines 277-282); the Rust borrows are modelled as
owned copies. -/
structure ResolvedContext where
  «namespace» : String
  auth : Auth
  cluster : Cluster
deriving DecidableEq, Repr

/-- Outcome of `subprocess::Exec::...::capture()` (lines 390-396): either
the process could not be launched (`PopenError`), or it ran to completion
with an exit status and captured stdout/stderr.  `stderr_str()` is
modelled by carrying stderr as a string directly. -/
inductive CaptureOutcome where
  | spawnError (e : String)
  | captured (success : Bool) (stdout : Bytes) (stderr : String)
deriving DecidableEq, Repr

/-- `Auth::exec` (lines 379-411).  The subprocess launcher and the
`serde_yaml::from_slice::<ExecCredential>` decoder are external
collaborators, passed as functions.  Non-`Exec` variants return
`Ok(None)` immediately. -/
def Auth.exec (launch : ExecAuth → CaptureOutcome)
    (decode : Bytes → Except String ExecCredential) :
    Auth → Except Error (Option ExecCredential)
  | .Exec exec =>
    match launch exec with
    | .spawnError e => .error (.AuthPluginExecError exec.command e)
    | .captured true stdout _ =>
      match decode stdout with
      | .ok creds => .ok (some creds)
      | .error e => .error (.AuthPluginDeserialize exec.command e)
    | .captured false _ stderr =>
      .error (.AuthPluginError exec.command stderr)
  | _ => .ok none

/-- `Auth::identity` (lines 415-443).  `reqwest::Identity::from_pem` is
an external collaborator (`fromPem`); the opaque `Identity` it returns
is modelled as `Bytes`.  The certificate and key are concatenated,
certificate first, and failures become `InvalidIdentity`. -/
def Auth.identity (fromPem : Bytes → Except String Bytes) (a : Auth) :
    Except Error (Option Bytes) :=
  match (match a with
         | .CertificateFile certificate key => some (certificate, key)
         | .CertificateEmbedded certificate key => some (certificate, key)
         | _ => none) with
  | none => .ok none
  | some (cert, key) =>
    match fromPem (cert ++ key) with
    | .ok id => .ok (some id)
    | .error e => .error (.InvalidIdentity e)

/-- `Auth::token` (lines 445-452). -/
def Auth.token : Auth → Option String
  | .Token token => some token
  | _ => none

/-- `impl From<ExecCredential> for Auth` (lines 461-472): the status maps
onto a concrete `Auth` and the expiration timestamp is dropped by the
`..` patterns. -/
def Auth.fromExecCredential (exec : ExecCredential) : Auth :=
  match exec.status with
  | .Token token _ => .Token token
  | .CertificateEmbedded certificate key _ => .CertificateEmbedded certificate key

/-- `KubernetesConfig::current_context` (lines 513-539): resolve the
`current-context` name through the contexts, users and clusters tables
(each via `Iterator::find`, i.e. first match), returning `None` on any
miss and defaulting the namespace to `"default"`. -/
def KubernetesConfig.currentContext (cfg : KubernetesConfig) :
    Option ResolvedContext :=
  match cfg.current_context with
  | none => none
  | some cur =>
    match cfg.contexts.find? (fun c => c.name == cur) with
    | none => none
    | some c =>
      match cfg.users.find? (fun u => u.name == c.context.user) with
      | none => none
      | some u =>
        match cfg.clusters.find? (fun cl => cl.name == c.context.cluster) with
        | none => none
        | some cl =>
          some { «namespace» := c.context.«namespace».getD "default",
                 auth := u.user.auth,
                 cluster := cl.cluster }

/-- First value bound to a key in an association list (how serde sees a
YAML mapping's entry for a field name). -/
def lookupKey (m : List (String × String)) (k : String) : Option String :=
  (m.find? (fun p => p.1 == k)).map Prod.snd

/-- The `File` variant of `ClusterCertificateAuthority` (lines 232-236)
deserialized from the flattened remainder map of a cluster entry: serde
requires the `certificate-authority` key, reads it with `de_path_bytes`,
and ignores unknown keys. -/
def decodeCAFileVariant (fs : String → FsResult)
    (m : List (String × String)) : Except String ClusterCertificateAuthority :=
  match lookupKey m "certificate-authority" with
  | some v => (bytesFromPathStr fs v).map .File
  | none => .error "missing field certificate-authority"

/-- The `Embedded` variant of `ClusterCertificateAuthority` (lines
238-245): serde requires the `certificate-authority-data` key, reads it
with `de_base64_bytes`, and ignores unknown keys. -/
def decodeCAEmbeddedVariant (_fs : String → FsResult)
    (m : List (String × String)) : Except String ClusterCertificateAuthority :=
  match lookupKey m "certificate-authority-data" with
  | some v => (bytesFromBase64 v).map .Embedded
  | none => .error "missing field certificate-authority-data"

/-- Deserialization of the `#[serde(untagged)]` enum
`ClusterCertificateAuthority` (lines 229-246) from the flattened
remainder map of a cluster entry, following serde's documented untagged
semantics: the variants are tried in declaration order (`File`, then
`Embedded`) and the first variant that deserializes successfully wins;
struct variants ignore unknown keys. -/
def decodeClusterCertificateAuthority (fs : String → FsResult)
    (m : List (String × String)) : Except String ClusterCertificateAuthority :=
  match decodeCAFileVariant fs m with
  | .ok v => .ok v
  | .error _ =>
    match decodeCAEmbeddedVariant fs m with
    | .ok v => .ok v
    | .error _ =>
      .error "data did not match any variant of untagged enum ClusterCertificateAuthority"

/-- Rust `str::trim_end_matches("/")` (line 570): remove every trailing
`/`. -/
def rustTrimEndSlash (s : String) : String :=
  ((s.toList.reverse.dropWhile (fun c => c == '/')).reverse).asString

/-- Rust `str::trim_start_matches("/")` (lines 626 and 633): remove
every leading `/`. -/
def rustTrimStartSlash (s : String) : String :=
  (s.toList.dropWhile (fun c => c == '/')).asString

/-- The observable configuration accumulated on a `reqwest::ClientBuilder`
by `KubernetesClient::new`: default headers, an optional client identity
and the added root certificates.  The built `Client` is modelled as this
state (reqwest's contract is that the built client carries exactly the
configured defaults). -/
structure BuilderState where
  headers : List (String × String) := []
  identity : Option Bytes := none
  rootCertificates : List Bytes := []
deriving DecidableEq, Repr

/-- The reqwest collaborator functions `KubernetesClient::new` depends
on: `HeaderValue::from_str`, `Identity::from_pem`,
`Certificate::from_pem` and `ClientBuilder::build` (the latter modelled
by its possible error). -/
structure Transport where
  headerValueFromStr : String → Except String Unit
  identityFromPem : Bytes → Except String Bytes
  certificateFromPem : Bytes → Except String Bytes
  buildError : BuilderState → Option String

/-- `KubernetesClient` (lines 553-559). -/
structure KubernetesClient where
  server : String
  «namespace» : String
  auth : Auth
  client : BuilderState
deriving DecidableEq, Repr

/-- `KubernetesClient::new` (lines 562-621): strip trailing slashes from
the server, set a `Bearer` authorization header when the auth is a
token (failing with `InvalidAuthHeader` on an invalid header value),
install the client identity from `Auth::identity`, add the cluster's
certificate authority as a trust root (failing with
`InvalidCertificate` tagged by which field sourced it), and build the
client (failing with `ReqwestInit`).  Note the exec plugin is never
invoked here: line 573 is only a TODO comment. -/
def KubernetesClient.new (t : Transport) (context : ResolvedContext) :
    Except Error KubernetesClient :=
  let server := rustTrimEndSlash context.cluster.server
  let headersResult : Except Error (List (String × String)) :=
    match context.auth.token with
    | some token =>
      match t.headerValueFromStr ("Bearer " ++ token) with
      | .ok _ => .ok [("authorization", "Bearer " ++ token)]
      | .error e => .error (.InvalidAuthHeader e)
    | none => .ok []
  match headersResult with
  | .error e => .error e
  | .ok headers =>
    match context.auth.identity t.identityFromPem with
    | .error e => .error e
    | .ok identity =>
      let rootsResult : Except Error (List Bytes) :=
        match context.cluster.certificate_authority with
        | some (.File certificate) =>
          match t.certificateFromPem certificate with
          | .ok cert => .ok [cert]
          | .error e => .error (.InvalidCertificate "certificate-authority" e)
        | some (.Embedded certificate) =>
          match t.certificateFromPem certificate with
          | .ok cert => .ok [cert]
          | .error e => .error (.InvalidCertificate "certificate-authority-data" e)
        | none => .ok []
      match rootsResult with
      | .error e => .error e
      | .ok rootCertificates =>
        let state : BuilderState := { headers, identity, rootCertificates }
        match t.buildError state with
        | some e => .error (.ReqwestInit e)
        | none =>
          .ok { server,
                «namespace» := context.«namespace»,
                auth := context.auth,
                client := state }

/-- `KubernetesClient::get` (lines 623-628): the produced request
builder is modelled by the URL it targets,
`format!("{}/{}", self.server, path.trim_start_matches("/"))`. -/
def KubernetesClient.get (c : KubernetesClient) (path : String) : String :=
  c.server ++ "/" ++ rustTrimStartSlash path

/-- `KubernetesClient::post` (lines 630-635): same URL join as `get`. -/
def KubernetesClient.post (c : KubernetesClient) (path : String) : String :=
  c.server ++ "/" ++ rustTrimStartSlash path

def fs0 : String → FsResult :=
  fun p => if p = "/tmp/ca.pem" then .ok [1, 2, 3] else .openErr "No such file"

def caFs0 : String → FsResult :=
  fun p => if p = "/etc/ca.pem" then .ok [10, 20] else .openErr "No such file"

def caFsMissing0 : String → FsResult :=
  fun _ => .openErr "No such file"

def caBothKeys0 : List (String × String) :=
  [("certificate-authority", "/etc/ca.pem"),
   ("certificate-authority-data", "AAAA")]

def idFn0 : Bytes → Except String Bytes :=
  fun b => if b = [1, 2] then .ok [9] else .error "bad"

def execAuth0 : ExecAuth := { api_version := "v1", command := "cmd" }

def decodeFail0 : Bytes → Except String ExecCredential :=
  fun _ => .error "bad yaml"

def transport0 : Transport :=
  { headerValueFromStr := fun _ => .ok (),
    identityFromPem := fun b => .ok b,
    certificateFromPem := fun b => .ok b,
    buildError := fun _ => none }

def transportBadHeader0 : Transport :=
  { transport0 with headerValueFromStr := fun _ => .error "invalid header value" }

def cluster0 : Cluster := { server := "https://host:6443/" }

def rcToken0 : ResolvedContext :=
  { «namespace» := "default", auth := .Token "abc", cluster := cluster0 }

def rcNull0 : ResolvedContext :=
  { «namespace» := "default", auth := .Null, cluster := cluster0 }

def rcExec0 : ResolvedContext :=
  { «namespace» := "default", auth := .Exec execAuth0, cluster := cluster0 }

def clToken0 : KubernetesClient :=
  { server := "https://host:6443",
    «namespace» := "default",
    auth := .Token "abc",
    client := { headers := [("authorization", "Bearer abc")],
                identity := none, rootCertificates := [] } }

def clNull0 : KubernetesClient :=
  { server := "https://host:6443",
    «namespace» := "default",
    auth := .Null,
    client := {} }

def cfg0 : KubernetesConfig :=
  { api_version := "v1", kind := "Config",
    clusters := [{ name := "c1", cluster := cluster0 }],
    contexts := [{ name := "ctx1",
                   context := { cluster := "c1", «namespace» := none,
                                user := "u1" } }],
    users := [{ name := "u1", user := { auth := .Token "abc" } }],
    current_context := some "ctx1" }

/-! ## Theorems -/

/-- `List.find?` succeeds with `x` exactly when the list splits as
`pre ++ x :: post` with `p x` true and `p` false on all of `pre` —
i.e. the first satisfying occurrence wins. -/
theorem find?_eq_some_iff_first {α : Type _} (p : α → Bool) (l : List α) (x : α) :
    l.find? p = some x ↔
      ∃ pre post, l = pre ++ x :: post ∧ p x = true ∧ ∀ y ∈ pre, p y = false := by
  induction l with
  | nil => simp
  | cons a tl ih =>
    by_cases hpa : p a = true
    · rw [List.find?_cons_of_pos _ hpa]
      constructor
      · rintro h
        injection h with h
        subst h
        exact ⟨[], tl, rfl, hpa, by simp⟩
      · rintro ⟨pre, post, heq, hx, hpre⟩
        cases pre with
        | nil =>
          simp only [List.nil_append, List.cons.injEq] at heq
          rw [heq.1]
        | cons b pre' =>
          simp only [List.cons_append, List.cons.injEq] at heq
          have : p b = false := hpre b (List.mem_cons_self b pre')
          rw [heq.1, this] at hpa
          exact absurd hpa (by simp)
    · rw [List.find?_cons_of_neg _ hpa, ih]
      constructor
      · rintro ⟨pre, post, heq, hx, hpre⟩
        refine ⟨a :: pre, post, by rw [heq]; rfl, hx, ?_⟩
        intro y hy
        rcases List.mem_cons.mp hy with rfl | hy'
        · exact Bool.eq_false_iff.mpr hpa
        · exact hpre y hy'
      · rintro ⟨pre, post, heq, hx, hpre⟩
        cases pre with
        | nil =>
          simp only [List.nil_append, List.cons.injEq] at heq
          rw [← heq.1] at hx
          exact absurd hx hpa
        | cons b pre' =>
          simp only [List.cons_append, List.cons.injEq] at heq
          exact ⟨pre', post, heq.2, hx,
                 fun y hy => hpre y (List.mem_cons_of_mem b hy)⟩

/-- Specialization of `find?_eq_some_iff_first` to lookup by a string
key through `==`, the shape used by `current_context`. -/
theorem find?_name_eq_some_iff {α : Type _} (key : α → String) (l : List α)
    (n : String) (x : α) :
    l.find? (fun a => key a == n) = some x ↔
      ∃ pre post, l = pre ++ x :: post ∧ key x = n ∧ ∀ y ∈ pre, key y ≠ n := by
  rw [find?_eq_some_iff_first]
  simp only [beq_iff_eq, beq_eq_false_iff_ne, ne_eq]

/-- `current_context` rewritten as an `Option.bind` chain, for reasoning
about the nested early-return matches. -/
theorem currentContext_eq (cfg : KubernetesConfig) :
    cfg.currentContext =
      cfg.current_context.bind (fun cur =>
        (cfg.contexts.find? (fun c => c.name == cur)).bind (fun c =>
          (cfg.users.find? (fun u => u.name == c.context.user)).bind (fun u =>
            (cfg.clusters.find? (fun cl => cl.name == c.context.cluster)).map
              (fun cl =>
                { «namespace» := c.context.«namespace».getD "default",
                  auth := u.user.auth,
                  cluster := cl.cluster })))) := by
  unfold KubernetesConfig.currentContext
  split
  · rename_i heq
    rw [heq]
    rfl
  · rename_i cur heq
    rw [heq, Option.some_bind]
    split
    · rename_i hc
      rw [hc]
      rfl
    · rename_i c hc
      rw [hc, Option.some_bind]
      split
      · rename_i hu
        rw [hu]
        rfl
      · rename_i u hu
        rw [hu, Option.some_bind]
        split
        · rename_i hcl
          rw [hcl]
          rfl
        · rename_i cl hcl
          rw [hcl]
          rfl

/-- C1: `current_context` resolves to `some r` exactly when the
`current-context` field is set, some context entry has that name (the
first occurrence by name winning), and that context's user name and
cluster name each match an entry (again first occurrence) in the users
and clusters tables; `r` then carries the found auth and cluster, with
the namespace equal to the context's namespace if set, else
`"default"`.  Any miss — absent `current-context`, unknown context,
unknown user or unknown cluster — therefore yields `none`, never a
partially populated result (and the function is total, so it never
panics). -/
theorem currentContext_spec (cfg : KubernetesConfig) (r : ResolvedContext) :
    cfg.currentContext = some r ↔
      ∃ cur, cfg.current_context = some cur ∧
      ∃ c, (∃ cpre cpost, cfg.contexts = cpre ++ c :: cpost ∧ c.name = cur ∧
              ∀ c' ∈ cpre, c'.name ≠ cur) ∧
      ∃ u, (∃ upre upost, cfg.users = upre ++ u :: upost ∧
              u.name = c.context.user ∧
              ∀ u' ∈ upre, u'.name ≠ c.context.user) ∧
      ∃ cl, (∃ lpre lpost, cfg.clusters = lpre ++ cl :: lpost ∧
              cl.name = c.context.cluster ∧
              ∀ cl' ∈ lpre, cl'.name ≠ c.context.cluster) ∧
        r = { «namespace» := c.context.«namespace».getD "default",
              auth := u.user.auth, cluster := cl.cluster } := by
  rw [currentContext_eq]
  simp only [Option.bind_eq_some, Option.map_eq_some', find?_name_eq_some_iff]
  constructor
  · rintro ⟨cur, h1, c, h2, u, h3, cl, h4, h5⟩
    exact ⟨cur, h1, c, h2, u, h3, cl, h4, h5.symm⟩
  · rintro ⟨cur, h1, c, h2, u, h3, cl, h4, h5⟩
    exact ⟨cur, h1, c, h2, u, h3, cl, h4, h5.symm⟩

theorem currentContext_spec_witness :
    cfg0.currentContext = some rcToken0 :=
  (currentContext_spec cfg0 rcToken0).mpr
    ⟨"ctx1", rfl,
     ⟨{ name := "ctx1",
        context := { cluster := "c1", «namespace» := none, user := "u1" } },
      ⟨[], [], rfl, rfl, by simp⟩,
      ⟨{ name := "u1", user := { auth := .Token "abc" } },
       ⟨[], [], rfl, rfl, by simp⟩,
       ⟨{ name := "c1", cluster := cluster0 },
        ⟨[], [], rfl, rfl, by simp⟩, rfl⟩⟩⟩⟩

theorem b64Index_b64Char : ∀ n < 64, b64Index? (b64Char n) = some n := by decide

theorem b64Char_ne_pad : ∀ n < 64, b64Char n ≠ '=' := by decide

/-- Decoding inverts encoding, chunk by chunk. -/
theorem base64DecodeCore_encodeCore (B : List Nat) (h : ∀ x ∈ B, x < 256) :
    base64DecodeCore (base64EncodeCore B) = .ok B := by
  induction B using base64EncodeCore.induct with
  | case1 => rfl
  | case2 a =>
    have ha : a < 256 := h a (by simp)
    have h1 : a / 4 < 64 := by omega
    have h2 : a % 4 * 16 < 64 := by omega
    simp [base64EncodeCore, base64DecodeCore,
          b64Index_b64Char _ h1, b64Index_b64Char _ h2]
    omega
  | case3 a b =>
    have ha : a < 256 := h a (by simp)
    have hb : b < 256 := h b (by simp)
    have h1 : a / 4 < 64 := by omega
    have h2 : a % 4 * 16 + b / 16 < 64 := by omega
    have h3 : b % 16 * 4 < 64 := by omega
    simp [base64EncodeCore, base64DecodeCore, b64Index_b64Char _ h1,
          b64Index_b64Char _ h2, b64Index_b64Char _ h3, b64Char_ne_pad _ h3]
    constructor <;> omega
  | case4 a b c rest ih =>
    have ha : a < 256 := h a (by simp)
    have hb : b < 256 := h b (by simp)
    have hc : c < 256 := h c (by simp)
    have h1 : a / 4 < 64 := by omega
    have h2 : a % 4 * 16 + b / 16 < 64 := by omega
    have h3 : b % 16 * 4 + c / 64 < 64 := by omega
    have h4 : c % 64 < 64 := by omega
    have hrest := ih (fun x hx => h x (by simp [hx]))
    simp [base64EncodeCore, base64DecodeCore, b64Index_b64Char _ h1,
          b64Index_b64Char _ h2, b64Index_b64Char _ h3, b64Index_b64Char _ h4,
          b64Char_ne_pad _ h3, b64Char_ne_pad _ h4, hrest]
    refine ⟨by omega, by omega, by omega⟩

theorem base64_decode_encode (B : List Nat) (h : ∀ x ∈ B, x < 256) :
    base64Decode (base64Encode B) = .ok B := by
  unfold base64Decode base64Encode
  exact base64DecodeCore_encodeCore B h

/-- C8: round-trip of byte-material decoding — a field holding the
standard base64 encoding of bytes `B` decodes to exactly `B` via the
base64-to-contents strategy, and a field holding a path to a file whose
contents are `B` decodes to exactly `B` via the path-to-contents
strategy; each strategy surfaces its own error immediately (open error,
read error, base64 error) with no fallback to another strategy. -/
theorem byte_material_round_trip :
    (∀ B : Bytes, (∀ x ∈ B, x < 256) →
       bytesFromBase64 (base64Encode B) = .ok B) ∧
    (∀ fs path B, fs path = .ok B → bytesFromPathStr fs path = .ok B) ∧
    (∀ s e, base64Decode s = .error e →
       bytesFromBase64 s = .error ("unable to decode base64 string: " ++ e)) ∧
    (∀ fs path e, fs path = .openErr e →
       bytesFromPathStr fs path =
         .error ("unable to open file at " ++ path ++ ": " ++ e)) ∧
    (∀ fs path e, fs path = .readErr e →
       bytesFromPathStr fs path =
         .error ("error reading file at " ++ path ++ ": " ++ e)) := by
  refine ⟨?_, ?_, ?_, ?_, ?_⟩
  · intro B hB
    unfold bytesFromBase64
    rw [base64_decode_encode B hB]
  · intro fs path B hfs
    unfold bytesFromPathStr
    rw [hfs]
  · intro s e hs
    unfold bytesFromBase64
    rw [hs]
  · intro fs path e hfs
    unfold bytesFromPathStr
    rw [hfs]
  · intro fs path e hfs
    unfold bytesFromPathStr
    rw [hfs]

theorem byte_material_round_trip_witness :
    bytesFromBase64 (base64Encode [77, 97, 110, 1]) = .ok [77, 97, 110, 1] ∧
    bytesFromPathStr fs0 "/tmp/ca.pem" = .ok [1, 2, 3] :=
  ⟨byte_material_round_trip.1 [77, 97, 110, 1] (by decide),
   byte_material_round_trip.2.1 fs0 "/tmp/ca.pem" [1, 2, 3] rfl⟩

/-- C4: converting a decoded `ExecCredential` into an `Auth` maps a
`Token` status to `Auth.Token` with exactly the emitted token string and
a `CertificateEmbedded` status to `Auth.CertificateEmbedded` with the
emitted certificate and key bytes; the optional expiration timestamp
does not influence the result in either case. -/
theorem fromExecCredential_spec :
    (∀ av k token exp,
       Auth.fromExecCredential ⟨av, k, .Token token exp⟩ = .Token token) ∧
    (∀ av k cert key exp,
       Auth.fromExecCredential ⟨av, k, .CertificateEmbedded cert key exp⟩ =
         .CertificateEmbedded cert key) :=
  ⟨fun _ _ _ _ => rfl, fun _ _ _ _ _ => rfl⟩

/-- C9: the Debug rendering of `Bytes` depends only on the length of the
contained bytes — any two values of equal length render identically, in
the format `&u8[<len>]` — so no content bytes can leak through debug
formatting. -/
theorem bytes_debug_length_only (b1 b2 : Bytes) (h : b1.length = b2.length) :
    Bytes.debugFmt b1 = Bytes.debugFmt b2 ∧
    Bytes.debugFmt b1 = "&u8[" ++ toString b1.length ++ "]" := by
  refine ⟨?_, rfl⟩
  unfold Bytes.debugFmt
  rw [h]

theorem bytes_debug_length_only_witness :
    Bytes.debugFmt [1, 2] = Bytes.debugFmt [255, 0] ∧
    Bytes.debugFmt [1, 2] = "&u8[" ++ toString (List.length ([1, 2] : Bytes)) ++ "]" :=
  bytes_debug_length_only [1, 2] [255, 0] rfl

/-- C6: for the certificate-bearing variants, `Auth::identity` hands the
transport's PEM constructor the certificate bytes followed by the key
bytes, in that order, mapping success to `Ok(Some(identity))` and
rejection to `InvalidIdentity`; every other variant yields `Ok(None)`
without consulting the transport. -/
theorem auth_identity_spec (fromPem : Bytes → Except String Bytes) :
    (∀ c k id, fromPem (c ++ k) = .ok id →
       Auth.identity fromPem (.CertificateFile c k) = .ok (some id) ∧
       Auth.identity fromPem (.CertificateEmbedded c k) = .ok (some id)) ∧
    (∀ c k e, fromPem (c ++ k) = .error e →
       Auth.identity fromPem (.CertificateFile c k) = .error (.InvalidIdentity e) ∧
       Auth.identity fromPem (.CertificateEmbedded c k) = .error (.InvalidIdentity e)) ∧
    (∀ u p, Auth.identity fromPem (.Plain u p) = .ok none) ∧
    (∀ tok, Auth.identity fromPem (.Token tok) = .ok none) ∧
    (∀ d, Auth.identity fromPem (.Exec d) = .ok none) ∧
    Auth.identity fromPem .Null = .ok none := by
  refine ⟨?_, ?_, fun _ _ => rfl, fun _ => rfl, fun _ => rfl, rfl⟩
  · intro c k id h
    constructor <;> simp [Auth.identity, h]
  · intro c k e h
    constructor <;> simp [Auth.identity, h]

theorem auth_identity_spec_witness :
    Auth.identity idFn0 (.CertificateFile [1] [2]) = .ok (some [9]) ∧
    Auth.identity idFn0 (.CertificateEmbedded [3] [4]) =
      .error (.InvalidIdentity "bad") :=
  ⟨((auth_identity_spec idFn0).1 [1] [2] [9] rfl).1,
   ((auth_identity_spec idFn0).2.1 [3] [4] "bad" rfl).2⟩

/-- C2: for an `Auth.Exec` variant, `Auth::exec` distinguishes three
failure modes with three distinct error kinds: spawn failure becomes
`AuthPluginExecError` with the command name; a non-zero exit becomes
`AuthPluginError` with the command name and the captured stderr text
verbatim; a zero exit whose stdout fails to decode as an
`ExecCredential` becomes `AuthPluginDeserialize` with the command name
and the decode detail. -/
theorem auth_exec_error_modes (launch : ExecAuth → CaptureOutcome)
    (decode : Bytes → Except String ExecCredential) (d : ExecAuth) :
    (∀ e, launch d = .spawnError e →
       Auth.exec launch decode (.Exec d) =
         .error (.AuthPluginExecError d.command e)) ∧
    (∀ out err, launch d = .captured false out err →
       Auth.exec launch decode (.Exec d) =
         .error (.AuthPluginError d.command err)) ∧
    (∀ out err e, launch d = .captured true out err → decode out = .error e →
       Auth.exec launch decode (.Exec d) =
         .error (.AuthPluginDeserialize d.command e)) := by
  refine ⟨?_, ?_, ?_⟩ <;> intros <;> simp [Auth.exec, *]

/-- Full characterization of when `KubernetesClient::new` succeeds and
what it returns: the headers step, the identity step, the trust-root
step and the build step each succeed, and the returned client bundles
the normalized server, namespace, auth copy and accumulated builder
state. -/
theorem new_ok_iff (t : Transport) (rc : ResolvedContext) (cl : KubernetesClient) :
    KubernetesClient.new t rc = .ok cl ↔
      ∃ headers identity rootCertificates,
        (match rc.auth.token with
         | some token =>
             t.headerValueFromStr ("Bearer " ++ token) = .ok () ∧
             headers = [("authorization", "Bearer " ++ token)]
         | none => headers = ([] : List (String × String))) ∧
        rc.auth.identity t.identityFromPem = .ok identity ∧
        (match rc.cluster.certificate_authority with
         | some (.File certificate) =>
             ∃ cert, t.certificateFromPem certificate = .ok cert ∧
               rootCertificates = [cert]
         | some (.Embedded certificate) =>
             ∃ cert, t.certificateFromPem certificate = .ok cert ∧
               rootCertificates = [cert]
         | none => rootCertificates = ([] : List Bytes)) ∧
        t.buildError { headers, identity, rootCertificates } = none ∧
        cl = { server := rustTrimEndSlash rc.cluster.server,
               «namespace» := rc.«namespace»,
               auth := rc.auth,
               client := { headers, identity, rootCertificates } } := by
  unfold KubernetesClient.new
  constructor
  · intro h
    dsimp only at h
    split at h
    · rename_i e hhr
      exact absurd h (by simp)
    · rename_i headers hhr
      split at h
      · rename_i e hid
        exact absurd h (by simp)
      · rename_i identity hid
        split at h
        · rename_i e hroots
          exact absurd h (by simp)
        · rename_i rootCertificates hroots
          try dsimp only at h
          split at h
          · rename_i e hbuild
            exact absurd h (by simp)
          · rename_i hbuild
            injection h with h
            subst h
            refine ⟨headers, identity, rootCertificates, ?_, hid, ?_, hbuild, rfl⟩
            · split at hhr
              · rename_i token htok
                split at hhr
                · rename_i hhv
                  injection hhr with hhr
                  subst hhr
                  exact ⟨hhv, rfl⟩
                · rename_i e hhv
                  exact absurd hhr (by simp)
              · rename_i htok
                injection hhr with hhr
                exact hhr.symm
            · split at hroots
              · rename_i certificate hca
                split at hroots
                · rename_i cert hcert
                  injection hroots with hroots
                  subst hroots
                  exact ⟨cert, hcert, rfl⟩
                · rename_i e hcert
                  exact absurd hroots (by simp)
              · rename_i certificate hca
                split at hroots
                · rename_i cert hcert
                  injection hroots with hroots
                  subst hroots
                  exact ⟨cert, hcert, rfl⟩
                · rename_i e hcert
                  exact absurd hroots (by simp)
              · rename_i hca
                injection hroots with hroots
                exact hroots.symm
  · rintro ⟨headers, identity, rootCertificates, hh, hid, hroots, hbuild, hcl⟩
    subst hcl
    split at hh
    · rename_i token htok
      obtain ⟨hhv, rfl⟩ := hh
      split at hroots
      · rename_i certificate hca
        obtain ⟨cert, hcert, rfl⟩ := hroots
        simp [hhv, hid, hcert, hbuild]
      · rename_i certificate hca
        obtain ⟨cert, hcert, rfl⟩ := hroots
        simp [hhv, hid, hcert, hbuild]
      · rename_i hca
        subst hroots
        simp [hhv, hid, hbuild]
    · rename_i htok
      subst hh
      split at hroots
      · rename_i certificate hca
        obtain ⟨cert, hcert, rfl⟩ := hroots
        simp [hid, hcert, hbuild]
      · rename_i certificate hca
        obtain ⟨cert, hcert, rfl⟩ := hroots
        simp [hid, hcert, hbuild]
      · rename_i hca
        subst hroots
        simp [hid, hbuild]

/-- C3 counterexample: a cluster entry carrying both of the mutually
exclusive keys `certificate-authority` and `certificate-authority-data`
is not rejected by the decode — the untagged decoding succeeds, picking
the `File` variant — so on this document the load does not fail with a
decode error. -/
theorem cluster_ca_both_keys_accepted :
    decodeClusterCertificateAuthority caFs0 caBothKeys0 = .ok (.File [10, 20]) ∧
    ∀ e, decodeClusterCertificateAuthority caFs0 caBothKeys0 ≠ .error e := by
  refine ⟨rfl, ?_⟩
  intro e h
  rw [show decodeClusterCertificateAuthority caFs0 caBothKeys0 =
        .ok (.File [10, 20]) from rfl] at h
  exact Except.noConfusion h

/-- C3 (amended): a cluster entry containing both mutually exclusive
certificate-authority keys is accepted, not rejected: serde's untagged
decoding tries the variants in declaration order, so
`certificate-authority` (the `File` variant) wins whenever its path
reads successfully, and only if the path strategy fails does the decode
fall back to `certificate-authority-data` (the `Embedded` variant). -/
theorem cluster_ca_untagged_first_wins (fs : String → FsResult)
    (m : List (String × String)) :
    (∀ path B, lookupKey m "certificate-authority" = some path →
       fs path = .ok B →
       decodeClusterCertificateAuthority fs m = .ok (.File B)) ∧
    (∀ path e s B, lookupKey m "certificate-authority" = some path →
       fs path = .openErr e →
       lookupKey m "certificate-authority-data" = some s →
       base64Decode s = .ok B →
       decodeClusterCertificateAuthority fs m = .ok (.Embedded B)) := by
  constructor
  · intro path B hpath hfs
    unfold decodeClusterCertificateAuthority decodeCAFileVariant bytesFromPathStr
    rw [hpath]
    dsimp only
    rw [hfs]
    rfl
  · intro path e s B hpath hfs hdata hb64
    unfold decodeClusterCertificateAuthority decodeCAFileVariant
      decodeCAEmbeddedVariant bytesFromPathStr bytesFromBase64
    rw [hpath]
    dsimp only
    rw [hfs]
    dsimp only
    rw [hdata]
    dsimp only
    rw [hb64]
    rfl

theorem cluster_ca_untagged_first_wins_witness :
    decodeClusterCertificateAuthority caFs0 caBothKeys0 = .ok (.File [10, 20]) ∧
    decodeClusterCertificateAuthority caFsMissing0 caBothKeys0 =
      .ok (.Embedded [0, 0, 0]) :=
  ⟨(cluster_ca_untagged_first_wins caFs0 caBothKeys0).1 "/etc/ca.pem"
     [10, 20] rfl rfl,
   (cluster_ca_untagged_first_wins caFsMissing0 caBothKeys0).2 "/etc/ca.pem"
     "No such file" "AAAA" [0, 0, 0] rfl rfl rfl rfl⟩

/-- A non-`Token` auth has no token. -/
theorem token_eq_none_of_ne (a : Auth) (h : ∀ token, a ≠ .Token token) :
    a.token = none := by
  cases a <;> first | rfl | exact absurd rfl (h _)

/-- C5: when the resolved auth is `Token{token}`, `KubernetesClient::new`
sets the client's default `authorization` header to exactly
`Bearer <token>`; if the transport rejects that header value, `new`
fails with `InvalidAuthHeader`; for every non-`Token` auth variant no
authorization header is set. -/
theorem client_new_auth_header (t : Transport) (rc : ResolvedContext) :
    (∀ token cl, rc.auth = .Token token →
       KubernetesClient.new t rc = .ok cl →
       cl.client.headers = [("authorization", "Bearer " ++ token)]) ∧
    (∀ token e, rc.auth = .Token token →
       t.headerValueFromStr ("Bearer " ++ token) = .error e →
       KubernetesClient.new t rc = .error (.InvalidAuthHeader e)) ∧
    (∀ cl, (∀ token, rc.auth ≠ .Token token) →
       KubernetesClient.new t rc = .ok cl →
       cl.client.headers = []) := by
  refine ⟨?_, ?_, ?_⟩
  · intro token cl hauth h
    obtain ⟨headers, identity, roots, hh, hid, hroots, hbuild, hcl⟩ :=
      (new_ok_iff t rc cl).mp h
    have htok : rc.auth.token = some token := by rw [hauth]; rfl
    rw [htok] at hh
    obtain ⟨-, rfl⟩ := hh
    rw [hcl]
  · intro token e hauth hhv
    have htok : rc.auth.token = some token := by rw [hauth]; rfl
    unfold KubernetesClient.new
    simp [htok, hhv]
  · intro cl hauth h
    obtain ⟨headers, identity, roots, hh, hid, hroots, hbuild, hcl⟩ :=
      (new_ok_iff t rc cl).mp h
    rw [token_eq_none_of_ne rc.auth hauth] at hh
    have hh' : headers = [] := hh
    subst hh'
    rw [hcl]

theorem client_new_auth_header_witness :
    clToken0.client.headers = [("authorization", "Bearer abc")] ∧
    KubernetesClient.new transportBadHeader0 rcToken0 =
      .error (.InvalidAuthHeader "invalid header value") ∧
    clNull0.client.headers = [] :=
  ⟨(client_new_auth_header transport0 rcToken0).1 "abc" clToken0 rfl rfl,
   (client_new_auth_header transportBadHeader0 rcToken0).2.1 "abc"
     "invalid header value" rfl rfl,
   (client_new_auth_header transport0 rcNull0).2.2 clNull0
     (fun _ h => Auth.noConfusion h) rfl⟩

/-- C7: a successfully built client stores the cluster's server string
with all trailing `/` stripped, and `get`/`post` target the URL formed
by joining that stored base, a single `/`, and the caller-supplied path
with its leading `/` stripped. -/
theorem client_server_normalization (t : Transport) (rc : ResolvedContext) :
    ∀ cl, KubernetesClient.new t rc = .ok cl →
      cl.server = rustTrimEndSlash rc.cluster.server ∧
      (∀ p, cl.get p =
        rustTrimEndSlash rc.cluster.server ++ "/" ++ rustTrimStartSlash p) ∧
      (∀ p, cl.post p =
        rustTrimEndSlash rc.cluster.server ++ "/" ++ rustTrimStartSlash p) := by
  intro cl h
  obtain ⟨headers, identity, roots, hh, hid, hroots, hbuild, hcl⟩ :=
    (new_ok_iff t rc cl).mp h
  subst hcl
  exact ⟨rfl, fun _ => rfl, fun _ => rfl⟩

theorem client_server_normalization_witness :
    clNull0.server = "https://host:6443" ∧
    clNull0.get "/api/v1" = "https://host:6443/api/v1" :=
  ⟨((client_server_normalization transport0 rcNull0 clNull0 rfl).1).trans rfl,
   ((client_server_normalization transport0 rcNull0 clNull0 rfl).2.1
      "/api/v1").trans rfl⟩

/-- C10: `KubernetesClient::new` never invokes the exec credential
plugin (its definition contains no call to `Auth::exec`; the source
leaves only a TODO comment at line 573).  Consequently, for a resolved
context whose auth is `Exec` — as well as `Plain` or `Null` — with
trust material the transport accepts and a successful build, `new`
succeeds and the client carries no authorization header and no client
identity: an unresolved exec auth silently yields an unauthenticated
client rather than an error. -/
theorem client_new_no_exec (t : Transport) (rc : ResolvedContext)
    (hauth : rc.auth = .Null ∨ (∃ d, rc.auth = .Exec d) ∨
             ∃ u p, rc.auth = .Plain u p)
    (hca : ∀ b, (rc.cluster.certificate_authority = some (.File b) ∨
                 rc.cluster.certificate_authority = some (.Embedded b)) →
       ∃ cert, t.certificateFromPem b = .ok cert)
    (hbuild : ∀ s, t.buildError s = none) :
    ∃ cl, KubernetesClient.new t rc = .ok cl ∧
      cl.client.headers = [] ∧ cl.client.identity = none := by
  have htok : rc.auth.token = none := by
    rcases hauth with h | ⟨d, h⟩ | ⟨u, p, h⟩ <;> rw [h] <;> rfl
  have hid : rc.auth.identity t.identityFromPem = .ok none := by
    rcases hauth with h | ⟨d, h⟩ | ⟨u, p, h⟩ <;> rw [h] <;> rfl
  rcases hcaCase : rc.cluster.certificate_authority with _ | ca
  · refine ⟨_, (new_ok_iff t rc _).mpr
      ⟨[], none, [], ?_, hid, ?_, hbuild _, rfl⟩, rfl, rfl⟩
    · rw [htok]
    · rw [hcaCase]
  · rcases ca with b | b
    · obtain ⟨cert, hcert⟩ := hca b (Or.inl hcaCase)
      refine ⟨_, (new_ok_iff t rc _).mpr
        ⟨[], none, [cert], ?_, hid, ?_, hbuild _, rfl⟩, rfl, rfl⟩
      · rw [htok]
      · rw [hcaCase]
        exact ⟨cert, hcert, rfl⟩
    · obtain ⟨cert, hcert⟩ := hca b (Or.inr hcaCase)
      refine ⟨_, (new_ok_iff t rc _).mpr
        ⟨[], none, [cert], ?_, hid, ?_, hbuild _, rfl⟩, rfl, rfl⟩
      · rw [htok]
      · rw [hcaCase]
        exact ⟨cert, hcert, rfl⟩

theorem client_new_no_exec_witness :
    ∃ cl, KubernetesClient.new transport0 rcExec0 = .ok cl ∧
      cl.client.headers = [] ∧ cl.client.identity = none :=
  client_new_no_exec transport0 rcExec0 (Or.inr (Or.inl ⟨execAuth0, rfl⟩))
    (fun b _ => ⟨b, rfl⟩) (fun _ => rfl)

theorem auth_exec_error_modes_witness :
    Auth.exec (fun _ => .spawnError "enoent") decodeFail0 (.Exec execAuth0) =
      .error (.AuthPluginExecError "cmd" "enoent") ∧
    Auth.exec (fun _ => .captured false [] "denied") decodeFail0 (.Exec execAuth0) =
      .error (.AuthPluginError "cmd" "denied") ∧
    Auth.exec (fun _ => .captured true [1] "") decodeFail0 (.Exec execAuth0) =
      .error (.AuthPluginDeserialize "cmd" "bad yaml") :=
  ⟨(auth_exec_error_modes (fun _ => .spawnError "enoent") decodeFail0 execAuth0).1
      "enoent" rfl,
   (auth_exec_error_modes (fun _ => .captured false [] "denied") decodeFail0
      execAuth0).2.1 [] "denied" rfl,
   (auth_exec_error_modes (fun _ => .captured true [1] "") decodeFail0
      execAuth0).2.2 [1] "" "bad yaml" rfl rfl⟩

end Kubeconfig
